import Mathlib

/-!
Verification development for the `infinarray` repository: array-like random
access over a delimiter-separated record file.

The definitions below are a shallow embedding of the TypeScript sources:
* `src/lines.ts` (the byte-stream tokenizer `getLines`, adapted from
  binary-split) — bytes are modelled as `Char` lists (all concrete inputs in
  this file are ASCII, where one char is one byte);
* `src/infinarray-base.ts` (`clampIndex`, `sameValueZero`);
* `src/infinarray.ts` (the `Infinarray` class: checkpoints, chunk cache,
  push buffer, flush, point access, slice, every, indexOf/includes, …);
* `src/view.ts` (`InfinarrayView.find/findLast/sampleValue`).

Stateful code is modelled by explicit state passing on `ArrState`; fallible
operations return `Except String`.  The `Infinarray` state machine is
specialised to the configuration `parseLineFn = id`, `stringifyFn = id` over
string records (a configuration the library supports directly), and the
fields `randomElementsCache` / `randomFn` are omitted from the state because
none of the operations modelled here read them (they are written by the
reservoir-injection step of `push` and read only by `sampleEntry`).
-/

namespace InfinSpec

/-! ## Tokenizer (src/lines.ts) -/

/-- One object pushed by the `getLines` transform: the record's sequence
number, the cumulative byte offset recorded for its start, and its bytes. -/
structure TokRecord where
  idx : Nat
  byteIdx : Nat
  line : List Char
deriving Repr, DecidableEq

/-- Mutable state of the `getLines` transform that survives across chunks:
the unconsumed suffix `buffered` (JS `undefined` is `none`), the cumulative
byte counter `numberBytes`, the next sequence number `currIdx`, and the
header-skipping flag. -/
structure TokState where
  buffered : Option (List Char)
  numberBytes : Nat
  currIdx : Nat
  firstLineSkipped : Bool
deriving Repr, DecidableEq

/-- The inner `j`/`k` loop of `nextSplitPatternIdx`: does `pat` occur in
`buf` starting at position `i`?  Reading past the end yields JS `undefined`,
which never equals a pattern byte, hence the `Option` comparison. -/
def matchesAt (buf pat : List Char) (i : Nat) : Bool :=
  (List.range pat.length).all fun k => buf[i + k]? == pat[k]?

/-- The scanning loop of `nextSplitPatternIdx`, by fuel (each JS iteration
increments `i`; fuel `buf.length + 1` from any start position `i ≤ buf.length`
is enough).  Returns what the JS `return idx` yields: the match position for
a found delimiter, or `i + pat.length - 1 ≥ buf.length` when the loop runs
off the end of the buffer. -/
def nextSplitScan (buf pat : List Char) : Nat → Nat → Int
  | 0, i => (i : Int) + pat.length - 1
  | fuel + 1, i =>
    if i < buf.length then
      if buf[i]? == pat[0]? then
        if 1 < pat.length then
          if matchesAt buf pat i then (i : Int) else nextSplitScan buf pat fuel (i + 1)
        else (i : Int)
      else nextSplitScan buf pat fuel (i + 1)
    else (i : Int) + pat.length - 1

/-- `nextSplitPatternIdx(buf, offset, bytesToMatch)`.  A negative `offset`
behaves like 0 in JS (negative indices read `undefined`, which never matches
the first pattern byte). -/
def nextSplitPatternIdx (buf : List Char) (offset : Int) (pat : List Char) : Int :=
  if offset ≥ (buf.length : Int) then -1
  else nextSplitScan buf pat (buf.length + 1) (if offset < 0 then 0 else offset.toNat)

/-- One step of the `while (true)` body of `transform`, iterated by fuel.
Arguments mirror the JS locals `buffer`, `offset`, `lastSplitIdx`; emitted
records are accumulated in order.  Each JS iteration strictly increases
`offset`, so fuel `buffer.length + 2` always reaches the `break`. -/
def transformLoop (pat buffer : List Char) :
    Nat → Nat → Nat → TokState → List TokRecord → List TokRecord × TokState
  | 0, _, lastSplitIdx, st, acc =>
      -- unreachable with sufficient fuel; mirrors the break branch
      (acc, { st with buffered := some (buffer.drop lastSplitIdx) })
  | fuel + 1, offset, lastSplitIdx, st, acc =>
    let splitCharIdx := nextSplitPatternIdx buffer ((offset : Int) - pat.length + 1) pat
    if splitCharIdx ≠ -1 ∧ splitCharIdx < (buffer.length : Int) then
      let split := splitCharIdx.toNat
      let (st, acc) :=
        if lastSplitIdx ≠ split then
          let line := (buffer.drop lastSplitIdx).take (split - lastSplitIdx)
          let (st, acc) :=
            if st.firstLineSkipped then
              ({ st with currIdx := st.currIdx + 1 },
               acc ++ [{ idx := st.currIdx, byteIdx := st.numberBytes, line := line }])
            else ({ st with firstLineSkipped := true }, acc)
          ({ st with numberBytes := st.numberBytes + line.length + 1 }, acc)
        else (st, acc)
      transformLoop pat buffer fuel (split + pat.length) (split + pat.length) st acc
    else
      (acc, { st with buffered := some (buffer.drop lastSplitIdx) })

/-- `transform(chunk, _, cb)`: prepend any buffered suffix, then run the
splitting loop. -/
def tokTransform (pat : List Char) (st : TokState) (chunk : List Char) :
    List TokRecord × TokState :=
  let (buffer, offset) :=
    match st.buffered with
    | some b => (b ++ chunk, b.length)
    | none => (chunk, 0)
  transformLoop pat buffer (buffer.length + 2) offset 0 { st with buffered := none } []

/-- `flush(cb)`: emit the final partial record, if non-empty. -/
def tokFlush (st : TokState) : List TokRecord :=
  match st.buffered with
  | some b =>
    if b.length > 0 then
      if st.firstLineSkipped then
        [{ idx := st.currIdx, byteIdx := st.numberBytes, line := b }]
      else []
    else []
  | none => []

/-- Run `getLines(splitString, skipFirstLine)` over a stream delivered as the
given list of chunks, collecting every record emitted by the transform steps
and the final flush. -/
def getLinesRun (pat : List Char) (skipFirstLine : Bool) (chunks : List (List Char)) :
    List TokRecord :=
  let init : TokState :=
    { buffered := none, numberBytes := 0, currIdx := 0, firstLineSkipped := !skipFirstLine }
  let (recs, st) := chunks.foldl
    (fun (p : List TokRecord × TokState) chunk =>
      let (recs, st) := tokTransform pat p.2 chunk
      (p.1 ++ recs, st))
    ([], init)
  recs ++ tokFlush st

/-- Tokenize a whole file (delivered as one chunk) with a single-byte
delimiter — how `Infinarray` consumes `getLines` over small files. -/
def tokenizeFile (delim : Char) (skipHeader : Bool) (file : List Char) : List TokRecord :=
  getLinesRun [delim] skipHeader [file]

/-! ## Index normalization and value equality (src/infinarray-base.ts) -/

/-- `clampIndex(index, length)`; `none` is JS `undefined`. -/
def clampIndex (index : Int) (length : Nat) : Option Int :=
  if -(length : Int) ≤ index ∧ index < 0 then some (index + length)
  else if index < -(length : Int) then some 0
  else if index ≥ (length : Int) then none
  else some index

/-- A small universe of JS values, rich enough for the equality and
truthiness distinctions the code makes: `NaN`, `-0`, other numbers, and
strings. -/
inductive JsVal where
  | nan : JsVal
  | negZero : JsVal
  | num : Int → JsVal
  | str : String → JsVal
deriving Repr, DecidableEq

/-- JS strict equality `===` on `JsVal`: `NaN` equals nothing (itself
included), `-0 === 0`, values of different types are never equal. -/
def strictEq : JsVal → JsVal → Bool
  | .nan, _ => false
  | _, .nan => false
  | .negZero, .negZero => true
  | .negZero, .num n => n == 0
  | .num n, .negZero => n == 0
  | .num a, .num b => a == b
  | .str a, .str b => a == b
  | _, _ => false

/-- `typeof x === 'number'` for `JsVal`. -/
def isNumberType : JsVal → Bool
  | .str _ => false
  | _ => true

/-- `x !== x`, i.e. `x` is `NaN`. -/
def isNaNv : JsVal → Bool
  | .nan => true
  | _ => false

/-- `sameValueZero(x, y)`: for two numbers, `x === y || (x !== x && y !== y)`;
otherwise `x === y`. -/
def sameValueZero (x y : JsVal) : Bool :=
  if isNumberType x && isNumberType y then strictEq x y || (isNaNv x && isNaNv y)
  else strictEq x y

/-- JS truthiness of a `JsVal` (`NaN`, `±0` and `""` are falsy). -/
def truthy : JsVal → Bool
  | .nan => false
  | .negZero => false
  | .num n => n != 0
  | .str s => s != ""

/-! ## Scanning search (`findFirstEntry` / `findLastEntry`)

`Infinarray.findFirstEntry(predicate, thisArg, fromIndex)` visits the decoded
records in logical order with their logical indices (both the fully-resident
path and the streaming path pair record `i` with index `i`) and returns the
first entry at index `≥ max(0, fromIndex)` satisfying the predicate, after
the guard `fromIndex >= length → undefined`.  Over the logical record list
this is the scan below.  `findLastEntry` scans everything and keeps the last
match. -/

/-- Scan `xs` pairing element `k` (of the enumeration starting at `i`) with
its index, returning the first entry at index `≥ start` whose value satisfies
`p`. -/
def findFirstFrom (p : JsVal → Bool) : List JsVal → Nat → Nat → Option (Nat × JsVal)
  | [], _, _ => none
  | x :: rest, i, start =>
    if start ≤ i ∧ p x then some (i, x) else findFirstFrom p rest (i + 1) start

/-- `findFirstEntry` over the logical record list. -/
def findFirstEntryOp (p : JsVal → Bool) (xs : List JsVal) (fromIndex : Int) :
    Option (Nat × JsVal) :=
  if fromIndex ≥ (xs.length : Int) then none
  else findFirstFrom p xs 0 (max 0 fromIndex).toNat

/-- Scan keeping the last matching entry, as `findLastEntry` does. -/
def findLastAux (p : JsVal → Bool) :
    List JsVal → Nat → Option (Nat × JsVal) → Option (Nat × JsVal)
  | [], _, acc => acc
  | x :: rest, i, acc => findLastAux p rest (i + 1) (if p x then some (i, x) else acc)

/-- `findLastEntry` over the logical record list. -/
def findLastEntryOp (p : JsVal → Bool) (xs : List JsVal) : Option (Nat × JsVal) :=
  findLastAux p xs 0 none

/-- `includes(searchElement, fromIndex)`: clamp, then search with
`sameValueZero`. -/
def includesOp (xs : List JsVal) (searchElement : JsVal) (fromIndex : Int) : Bool :=
  match clampIndex fromIndex xs.length with
  | none => false
  | some fr => (findFirstEntryOp (fun val => sameValueZero val searchElement) xs fr).isSome

/-- `indexOf(searchElement, fromIndex)`: clamp, then search with strict
equality `===`. -/
def indexOfOp (xs : List JsVal) (searchElement : JsVal) (fromIndex : Int) : Int :=
  match clampIndex fromIndex xs.length with
  | none => -1
  | some fr =>
    match findFirstEntryOp (fun val => strictEq val searchElement) xs fr with
    | some (i, _) => (i : Int)
    | none => -1

/-! ## The derived view (src/view.ts)

`InfinarrayView` wraps an `Infinarray` with a pure `mapFn`.  Its `find`,
`findLast` and `sampleValue` test the *underlying* result value for JS
truthiness before mapping (`if (val) { return this.mapFn(val); }`). -/

/-- `InfinarrayView.find`: run the material `find` with the composed
predicate, then `if (val) mapFn(val) else undefined`. -/
def viewFind (mapFn : JsVal → JsVal) (p : JsVal → Bool) (xs : List JsVal) : Option JsVal :=
  match (findFirstEntryOp (fun value => p (mapFn value)) xs 0).map Prod.snd with
  | some val => if truthy val then some (mapFn val) else none
  | none => none

/-- `InfinarrayView.findLast`: same shape over the material `findLast`. -/
def viewFindLast (mapFn : JsVal → JsVal) (p : JsVal → Bool) (xs : List JsVal) : Option JsVal :=
  match (findLastEntryOp (fun value => p (mapFn value)) xs).map Prod.snd with
  | some val => if truthy val then some (mapFn val) else none
  | none => none

/-- `InfinarrayView.sampleValue`, given the material value the underlying
`sampleValue` produced (the element at the sampled index, or `none` on an
empty array): `if (value) mapFn(value) else undefined`. -/
def viewSampleValue (mapFn : JsVal → JsVal) (res : Option JsVal) : Option JsVal :=
  match res with
  | some value => if truthy value then some (mapFn value) else none
  | none => none

/-- `InfinarrayView.sampleValue` when the underlying array samples index
`i` of the logical record list `xs`. -/
def viewSampleValueAt (mapFn : JsVal → JsVal) (xs : List JsVal) (i : Nat) : Option JsVal :=
  viewSampleValue mapFn xs[i]?

/-! ## The `Infinarray` state machine (src/infinarray.ts)

Records are `List Char` values with `parseLineFn = id` and
`stringifyFn = id` (the library supports exactly this configuration, e.g.
`parseLineFn: (line) => line` as in the repository's own tests).  File
contents are the byte (char) list `file`; appends mutate it. -/

/-- `Checkpoint { byte, index }`.  `index` is an `Int` because
`flushPushedValues` computes it from a subtraction that JS performs on
doubles. -/
structure Checkpoint where
  byte : Nat
  index : Int
deriving Repr, DecidableEq

/-- The construction-time options the modelled operations read. -/
structure ArrConfig where
  delimiter : Char
  skipHeader : Bool
  readonlyMode : Bool
  maxElementsPerCheckpoint : Nat
  minElementsPerCheckpoint : Nat
  maxPushedValuesBufferSize : Nat
  enableCheckpointDownsizing : Bool
  minAccessesBeforeDownsizing : Nat
  resizeCacheHitThreshold : Rat
deriving Repr, DecidableEq

/-- The mutable fields of an `Infinarray` instance (with the file contents
inlined as `file`).  `randomElementsCache`/`randomFn` are omitted: no modelled
operation reads them. -/
structure ArrState where
  config : ArrConfig
  file : List Char
  checkpoints : List Checkpoint
  pushedValuesBuffer : List (List Char)
  cachedChunk : Option (Nat × List (List Char))
  ready : Bool
  cacheHits : Nat
  cacheMisses : Nat
  arrayLength : Nat
  elementsPerCheckpoint : Nat
deriving Repr, DecidableEq

/-- The error message used by every not-initialized guard. -/
def notReadyMsg : String :=
  "Infinarray not initialized (Make sure to run init() before other functions)"

/-- The constructor body after a successful delimiter check: all counters
zero, `elementsPerCheckpoint` starts at the configured maximum. -/
def mkState (config : ArrConfig) (file : List Char) : ArrState :=
  { config := config
    file := file
    checkpoints := []
    pushedValuesBuffer := []
    cachedChunk := none
    ready := false
    cacheHits := 0
    cacheMisses := 0
    arrayLength := 0
    elementsPerCheckpoint := config.maxElementsPerCheckpoint }

/-- The constructor's delimiter validation:
`if (options.delimiter && Buffer.from(options.delimiter).length !== 1) throw`.
`none` models an absent option; the empty string is falsy in JS, so it skips
the check. -/
def delimiterCheck (delimiter : Option String) : Except String Unit :=
  match delimiter with
  | none => Except.ok ()
  | some d =>
    if d ≠ "" ∧ d.utf8ByteSize ≠ 1 then
      Except.error "Delimiter must be a single byte character"
    else Except.ok ()

/-- `cacheHitRatio` (0 when there has been no access). -/
def cacheHitRate (s : ArrState) : Rat :=
  if s.cacheMisses + s.cacheHits = 0 then 0
  else (s.cacheHits : Rat) / ((s.cacheMisses : Rat) + (s.cacheHits : Rat))

/-- `isFullyInMemory()`. -/
def isFullyInMemory (s : ArrState) : Bool :=
  s.elementsPerCheckpoint ≥ s.arrayLength

/-- JS `x % epc === 0` for an `Int` index and `Nat` stride; `x % 0` is `NaN`
in JS and never `=== 0`, hence the guard. -/
def jsMultipleOf (x : Int) (epc : Nat) : Bool :=
  epc ≠ 0 && x % (epc : Int) == 0

/-- The per-item body of the `pushedValuesBuffer.forEach` in
`flushPushedValues`, folded over the buffer.  The accumulator carries
(`strToAppend`, `currByteIdx`, checkpoints appended so far).  Note two
faithful oddities of the source: `currByteIdx` grows by the length of the
*whole accumulated* `strToAppend`, and the checkpoint index is
`lastFlushedIndex + idx + 1`. -/
def flushFoldStep (delim : Char) (epc : Nat) (lastFlushedIndex : Int) (bufLen : Nat)
    (acc : List Char × Nat × List Checkpoint) (itemWithIdx : Nat × List Char) :
    List Char × Nat × List Checkpoint :=
  let (strToAppend, currByteIdx, cps) := acc
  let (idx, item) := itemWithIdx
  let currIdx : Int := lastFlushedIndex + idx + 1
  let strToAppend := strToAppend ++ item
  let currByteIdx := currByteIdx + strToAppend.length
  let cps := if jsMultipleOf currIdx epc then cps ++ [{ byte := currByteIdx, index := currIdx }] else cps
  if idx ≠ bufLen - 1 then (strToAppend ++ [delim], currByteIdx + 1, cps)
  else (strToAppend, currByteIdx, cps)

/-- `flushPushedValues()`: no-op on an empty buffer; otherwise fix up a
missing trailing delimiter (the source appends a hard-coded `'\n'`, not the
configured delimiter), encode the buffer, extend the checkpoint list, append
to the file and clear the buffer.  With a single-byte delimiter and an empty
file, the JS `handle.read` at position `-1` reads 0 bytes and leaves the
probe buffer zeroed, so the end-of-file delimiter test compares against a
NUL byte. -/
def flushOp (s : ArrState) : ArrState :=
  if s.pushedValuesBuffer.isEmpty then s
  else
    let size := s.file.length
    let delimiterExistsAtEnd : Bool :=
      if size = 0 then s.config.delimiter == Char.ofNat 0
      else s.file.getLast? == some s.config.delimiter
    let (strToAppend, currByteIdx) : List Char × Nat :=
      if !delimiterExistsAtEnd ∧ size > 0 then (['\n'], size + 1) else ([], size)
    let lastFlushedIndex : Int := (s.arrayLength : Int) - s.pushedValuesBuffer.length
    let (strToAppend, _, newCps) :=
      s.pushedValuesBuffer.enum.foldl
        (flushFoldStep s.config.delimiter s.elementsPerCheckpoint lastFlushedIndex
          s.pushedValuesBuffer.length)
        (strToAppend, currByteIdx, [])
    { s with
      file := s.file ++ strToAppend
      checkpoints := s.checkpoints ++ newCps
      pushedValuesBuffer := [] }

/-- `generateCheckpoints(warmupCacheIdx)`: flush, then one full tokenizer
pass that recounts the length, collects a checkpoint for every record whose
sequence number is a multiple of the stride (or the single `{0, 0}`
checkpoint for an empty file), and precaches the records whose sequence
number lies in `[warmupCacheCheckpointIdx, warmupCacheCheckpointIdx + stride)`
— faithfully comparing record indices against the *checkpoint* index, as the
source does.  (`Nat` division by 0 gives 0 where JS gives `Infinity`; no
modelled scenario uses a zero stride.) -/
def generateCheckpointsOp (s : ArrState) (warmupCacheIdx : Nat) : ArrState :=
  let s := flushOp s
  let epc := s.elementsPerCheckpoint
  let warmupCacheCheckpointIdx := warmupCacheIdx / epc
  let recs := tokenizeFile s.config.delimiter s.config.skipHeader s.file
  let precache := (recs.filter fun r =>
    warmupCacheCheckpointIdx ≤ r.idx ∧ r.idx < warmupCacheCheckpointIdx + epc).map (·.line)
  let cps := (recs.filter fun r => jsMultipleOf r.idx epc).map fun r =>
    ({ byte := r.byteIdx, index := (r.idx : Int) } : Checkpoint)
  let cps := if cps.isEmpty then [{ byte := 0, index := 0 }] else cps
  { s with
    arrayLength := recs.length
    checkpoints := cps
    cachedChunk := some (warmupCacheCheckpointIdx, precache) }

/-- `init()`: fails on a second call; otherwise builds the checkpoints and
marks the instance ready.  (`generateRandomElementsCache` only writes the
unmodelled random cache: its internal `every` scan and `flushPushedValues`
call change no modelled field, the push buffer being empty before `init`.) -/
def initOp (s : ArrState) : Except String ArrState :=
  if s.ready then Except.error "Infinarray object already initialized"
  else Except.ok { generateCheckpointsOp s 0 with ready := true }

/-- `init()` outcome on a fresh, not-yet-ready instance. -/
def initState (config : ArrConfig) (file : List Char) : ArrState :=
  { generateCheckpointsOp (mkState config file) 0 with ready := true }

/-- Node's `createReadStream(path, { start, end? })` byte window: `end` is
inclusive and clipped to the file, a `start` at or past the end of file
yields no data. -/
def fileRange (file : List Char) (start : Nat) (endInclusive : Option Int) : List Char :=
  let rest := file.drop start
  match endInclusive with
  | none => rest
  | some e => if e < (start : Int) then [] else rest.take ((e + 1 - start).toNat)

/-- `isIndexInPushBuffer(index)`. -/
def isIndexInPushBuffer (s : ArrState) (index : Nat) : Bool :=
  (index : Int) ≥ (s.arrayLength : Int) - s.pushedValuesBuffer.length

/-- The tail of `get`: stream the byte range of checkpoint `checkpointIdx`,
parse every record, install the new cached chunk, and return the offset
element.  JS throws a `TypeError` if the checkpoint does not exist. -/
def getReadChunk (s : ArrState) (checkpointIdx offset : Nat) :
    Except String (Option (List Char) × ArrState) :=
  match s.checkpoints[checkpointIdx]? with
  | none => Except.error "TypeError: Cannot read properties of undefined (reading byte)"
  | some cp =>
    let readUntilByte : Option Int :=
      match s.checkpoints[checkpointIdx + 1]? with
      | some nextCp => some ((nextCp.byte : Int) - 1)
      | none => none
    let bytes := fileRange s.file cp.byte readUntilByte
    let arr := (getLinesRun [s.config.delimiter] s.config.skipHeader [bytes]).map (·.line)
    Except.ok (arr[offset]?, { s with cachedChunk := some (checkpointIdx, arr) })

/-- `get(idx)` for a non-negative index: cache hit, invariant check, push
buffer, optional downsizing rebuild, then a streamed chunk read. -/
def getOp (s : ArrState) (idx : Nat) : Except String (Option (List Char) × ArrState) :=
  if !s.ready then Except.error notReadyMsg
  else
    let checkpointIdx := idx / s.elementsPerCheckpoint
    let offset := idx % s.elementsPerCheckpoint
    if idx ≥ s.arrayLength then Except.ok (none, s)
    else
      match s.cachedChunk with
      | some (ci, data) =>
        if ci = checkpointIdx then
          Except.ok (data[offset]?, { s with cacheHits := s.cacheHits + 1 })
        else getOpMiss s idx checkpointIdx offset
      | none => getOpMiss s idx checkpointIdx offset
where
  /-- The miss path of `get`. -/
  getOpMiss (s : ArrState) (idx checkpointIdx offset : Nat) :
      Except String (Option (List Char) × ArrState) :=
    if isFullyInMemory s then
      Except.error "Array is fully stored in memory, but could not find value"
    else
      let s := { s with cacheMisses := s.cacheMisses + 1 }
      if isIndexInPushBuffer s idx then
        Except.ok
          (s.pushedValuesBuffer[idx - (s.arrayLength - s.pushedValuesBuffer.length)]?, s)
      else
        if s.config.enableCheckpointDownsizing
            && decide (s.cacheHits + s.cacheMisses > s.config.minAccessesBeforeDownsizing)
            && decide (cacheHitRate s < s.config.resizeCacheHitThreshold)
            && s.elementsPerCheckpoint != s.config.minElementsPerCheckpoint then
          let s := { s with
            elementsPerCheckpoint :=
              max s.config.minElementsPerCheckpoint (s.elementsPerCheckpoint / 2)
            cacheMisses := 0
            cacheHits := 0 }
          let s := generateCheckpointsOp s idx
          match s.cachedChunk with
          | some (ci, data) =>
            if ci = checkpointIdx then Except.ok (data[offset]?, s)
            else
              getReadChunk s (idx / s.elementsPerCheckpoint) (idx % s.elementsPerCheckpoint)
          | none =>
            getReadChunk s (idx / s.elementsPerCheckpoint) (idx % s.elementsPerCheckpoint)
        else getReadChunk s checkpointIdx offset

/-- `at(index)`: not-ready guard, out-of-range → `undefined`, negative
indices count from the end. -/
def atOp (s : ArrState) (index : Int) : Except String (Option (List Char) × ArrState) :=
  if !s.ready then Except.error notReadyMsg
  else if index ≥ (s.arrayLength : Int) ∨ index < -(s.arrayLength : Int) then
    Except.ok (none, s)
  else if index < 0 then getOp s (index + s.arrayLength).toNat
  else getOp s index.toNat

/-- `push(...items)`: readonly and ready guards, buffer the items, flush when
the buffer exceeds its maximum, append into a resident last-checkpoint chunk
with room, and grow the logical length.  (The reservoir injection into the
random cache touches only the unmodelled `randomElementsCache`.) -/
def pushOp (s : ArrState) (items : List (List Char)) : Except String (Nat × ArrState) :=
  if s.config.readonlyMode then
    Except.error "Infinarray is in readonly mode, objects cannot be pushed"
  else if !s.ready then Except.error notReadyMsg
  else
    let s := { s with pushedValuesBuffer := s.pushedValuesBuffer ++ items }
    let s := if s.pushedValuesBuffer.length > s.config.maxPushedValuesBufferSize then
      flushOp s else s
    let s :=
      match s.cachedChunk with
      | some (ci, data) =>
        if ci = s.checkpoints.length - 1 then
          let newData := data ++ items.take (s.elementsPerCheckpoint - data.length)
          { s with cachedChunk := some (ci, newData) }
        else s
      | none => s
    let s := { s with arrayLength := s.arrayLength + items.length }
    Except.ok (s.arrayLength, s)

/-- `slice(start, end)` (defaults `start = 0`, `end = length`): flush, clamp
both bounds, serve from the cached chunk when the requested window lies in
`[cachedChunk.idx, cachedChunk.idx + elementsPerCheckpoint)` (the source
compares the chunk's *checkpoint* number with element indices), else stream
from the checkpoint at or before the start index, collecting the records with
logical index in `[startIdx, endIdx)`. -/
def sliceOp (s : ArrState) (startArg endArg : Option Int) :
    Except String (List (List Char) × ArrState) :=
  if !s.ready then Except.error notReadyMsg
  else
    let start := startArg.getD 0
    let endv := endArg.getD s.arrayLength
    let s := flushOp s
    let startIdxQ := clampIndex start s.arrayLength
    let endIdxQ := if endv ≥ (s.arrayLength : Int) then some (s.arrayLength : Int)
      else clampIndex endv s.arrayLength
    match startIdxQ, endIdxQ with
    | some startIdx, some endIdx =>
      if endIdx ≤ startIdx then Except.ok ([], s)
      else
        let cacheHit :=
          match s.cachedChunk with
          | some (ci, _) =>
            decide ((ci : Int) ≤ startIdx) && decide (endIdx < (ci : Int) + s.elementsPerCheckpoint)
          | none => false
        if cacheHit then
          match s.cachedChunk with
          | some (ci, data) =>
            Except.ok
              (((data.drop (startIdx - ci).toNat).take (endIdx - startIdx).toNat), s)
          | none => Except.ok ([], s)
        else
          match s.checkpoints[(startIdx.toNat / s.elementsPerCheckpoint)]? with
          | none => Except.error "TypeError: Cannot read properties of undefined (reading byte)"
          | some startCheckpoint =>
            let bytes := fileRange s.file startCheckpoint.byte none
            let recs := getLinesRun [s.config.delimiter] s.config.skipHeader [bytes]
            let sliced := (recs.enum.filter fun kr =>
              let i : Int := startCheckpoint.index + kr.1
              startIdx ≤ i ∧ i < endIdx).map (·.2.line)
            Except.ok (sliced, s)
    | _, _ => Except.ok ([], s)

/-- `every(predicate)`: flush, then a pre-pass over the cached chunk (if any)
iterating `i` from `cachedChunk.idx` to `cachedChunk.idx + data.length`,
passing `data[i]` (possibly JS `undefined`, hence `Option`) and `i` to the
predicate; if the array is fully in memory the pre-pass result is final,
otherwise the whole file is streamed with a fresh zero-based counter. -/
def everyOp (s : ArrState) (p : Option (List Char) → Nat → Bool) :
    Except String (Bool × ArrState) :=
  if !s.ready then Except.error notReadyMsg
  else
    let s := flushOp s
    let chunkPass : Bool :=
      match s.cachedChunk with
      | some (ci, data) => (List.range data.length).all fun k => p data[ci + k]? (ci + k)
      | none => true
    if !chunkPass then Except.ok (false, s)
    else if s.cachedChunk.isSome ∧ isFullyInMemory s then Except.ok (true, s)
    else
      let recs := tokenizeFile s.config.delimiter s.config.skipHeader s.file
      Except.ok (((recs.map (·.line)).enum.all fun kl => p (some kl.2) kl.1), s)

/-- `sampleIndex()` — note: no readiness guard in the source.  The random
draw `r ∈ [0, 1)` is passed explicitly. -/
def sampleIndexOp (s : ArrState) (r : Rat) : Int :=
  if s.arrayLength = 0 then -1
  else Int.floor (r * (s.arrayLength : Rat))

/-! ## The Adaptive Resize Controller's stride update

In `get`, when downsizing triggers (`elementsPerCheckpoint !==
minElementsPerCheckpoint` among the conditions), the stride becomes
`Math.max(minElementsPerCheckpoint, Math.floor(elementsPerCheckpoint / 2))`;
otherwise it is left unchanged. -/

/-- One (guarded) stride update of the resize controller. -/
def strideStep (minEpc epc : Nat) : Nat :=
  if epc ≠ minEpc then max minEpc (epc / 2) else epc

/-- The stride after `n` resize actions, starting from the configured
maximum (the constructor sets `elementsPerCheckpoint` to
`maxElementsPerCheckpoint`). -/
def strideSeq (minEpc maxEpc : Nat) : Nat → Nat
  | 0 => maxEpc
  | n + 1 => strideStep minEpc (strideSeq minEpc maxEpc n)

/-- Start offsets that the spec's accounting assigns to the split pieces of
a stream: every piece — emitted or dropped — advances the counter by
delimiter-width plus content-width, and each piece is tagged with the offset
of its start. -/
def specRecordStarts (delimWidth : Nat) : List (List Char) → List Nat
  | [] => []
  | piece :: rest => 0 :: (specRecordStarts delimWidth rest).map (· + (delimWidth + piece.length))

/-! ## Concrete scenarios

A small newline file with records `a`, `b` (no trailing delimiter), and the
four-record file `a`, `b`, `c`, `d`, both with stride 2 — the stride-2
four-record layout of the spec's concrete scenarios. -/

/-- Stride-2 writable configuration with newline delimiter and a large push
buffer (no auto-flush). -/
def cfgStride2 : ArrConfig :=
  { delimiter := '\n'
    skipHeader := false
    readonlyMode := false
    maxElementsPerCheckpoint := 2
    minElementsPerCheckpoint := 2
    maxPushedValuesBufferSize := 1024
    enableCheckpointDownsizing := true
    minAccessesBeforeDownsizing := 15
    resizeCacheHitThreshold := 1/2 }

/-- The two-record file `"a\nb"`. -/
def fileAB : List Char := ['a', '\n', 'b']

/-- The four-record file `"a\nb\nc\nd"`. -/
def fileABCD : List Char := ['a', '\n', 'b', '\n', 'c', '\n', 'd']

/-- Initialized instance over `"a\nb"`, stride 2. -/
def stateAB : ArrState := initState cfgStride2 fileAB

/-- `stateAB` after `push("c", "d")` (buffered, no auto-flush). -/
def stateABpushed : ArrState :=
  match pushOp stateAB [['c'], ['d']] with
  | Except.ok p => p.2
  | Except.error _ => stateAB

/-- Initialized instance over `"a\nb\nc\nd"`, stride 2. -/
def stateABCD : ArrState := initState cfgStride2 fileABCD

/-- `stateABCD` after `at(2)`: the cached chunk is now checkpoint 1 holding
records `c`, `d`. -/
def stateABCDat2 : ArrState :=
  match atOp stateABCD 2 with
  | Except.ok p => p.2
  | Except.error _ => stateABCD

/-- Semicolon-delimiter writable configuration (default-sized strides). -/
def cfgSemi : ArrConfig :=
  { delimiter := ';'
    skipHeader := false
    readonlyMode := false
    maxElementsPerCheckpoint := 4096
    minElementsPerCheckpoint := 64
    maxPushedValuesBufferSize := 1024
    enableCheckpointDownsizing := true
    minAccessesBeforeDownsizing := 15
    resizeCacheHitThreshold := 1/2 }

/-- Initialized semicolon-delimited instance over the one-record file `"a"`. -/
def stateSemiA : ArrState := initState cfgSemi ['a']

/-- `stateSemiA` after `push("b")` (buffered). -/
def stateSemiApushed : ArrState :=
  match pushOp stateSemiA [['b']] with
  | Except.ok p => p.2
  | Except.error _ => stateSemiA

/-- Stride-2 writable configuration with `maxPushedValuesBufferSize = 2`, so
a third buffered value triggers an auto-flush inside `push`. -/
def cfgAutoFlush : ArrConfig :=
  { cfgStride2 with maxPushedValuesBufferSize := 2 }

/-- Initialized instance over `"a\nb\nc\nd"`, stride 2, auto-flush after 2
buffered values. -/
def stateAuto : ArrState := initState cfgAutoFlush fileABCD

/-- `stateAuto` after `push("e", "f", "g")`, which auto-flushes. -/
def stateAutoPushed : ArrState :=
  match pushOp stateAuto [['e'], ['f'], ['g']] with
  | Except.ok p => p.2
  | Except.error _ => stateAuto

/-! ## Claim theorems -/

/-- Claim C1 (code bug): `flushPushedValues` is supposed to append, for each
buffered record whose logical index is a multiple of the stride, a checkpoint
at that record's start byte.  Concretely: over the two-record file `"a\nb"`
with stride 2, pushing `"c"`, `"d"` (logical indices 2, 3) and flushing must
append the checkpoint `{index 2, byte 4}` (record `c` starts at byte 4 of the
resulting `"a\nb\nc\nd"`, as the tokenizer pass confirms).  The code instead
appends `{index 4, byte 11}`: index 4 does not satisfy `checkpoint k = k *
stride` (checkpoint 1 should have index 2), and byte 11 lies beyond the
7-byte file. -/
theorem flushPushedValues_checkpoint_extension_bug :
    pushOp stateAB [['c'], ['d']] = Except.ok (4, stateABpushed)
    ∧ stateABpushed.pushedValuesBuffer = [['c'], ['d']]
    ∧ (flushOp stateABpushed).file = fileABCD
    ∧ (tokenizeFile '\n' false (flushOp stateABpushed).file).map
        (fun r => (r.idx, r.byteIdx)) = [(0, 0), (1, 2), (2, 4), (3, 6)]
    ∧ (flushOp stateABpushed).checkpoints =
        [{ byte := 0, index := 0 }, { byte := 11, index := 4 }]
    ∧ ({ byte := 11, index := 4 } : Checkpoint) ≠ { byte := 4, index := 2 }
    ∧ (flushOp stateABpushed).file.length = 7 := by
  refine ⟨rfl, rfl, rfl, rfl, rfl, by decide, rfl⟩

/-- Claim C2 (code bug): `slice(a, b)` must return exactly the elements at
logical indices `[clampedA, clampedB)`, identically whether served from the
cached chunk or streamed.  Concretely: on the four-record file `a b c d`
with stride 2, after `at(2)` installs cached chunk 1 (`[c, d]`),
`slice(1, 2)` answers from the cache and returns `["c"]`, while the element
at logical index 1 — also what streaming the same bounds from a chunk-0 state
returns — is `["b"]`. -/
theorem slice_cached_chunk_bug :
    atOp stateABCD 2 = Except.ok (some ['c'], stateABCDat2)
    ∧ stateABCDat2.cachedChunk = some (1, [['c'], ['d']])
    ∧ (sliceOp stateABCDat2 (some 1) (some 2)).map Prod.fst = Except.ok [['c']]
    ∧ (sliceOp stateABCD (some 1) (some 2)).map Prod.fst = Except.ok [['b']]
    ∧ (((tokenizeFile '\n' false stateABCDat2.file).map (·.line)).drop 1).take 1 = [['b']]
    ∧ ([['c']] : List (List Char)) ≠ [['b']] := by
  refine ⟨rfl, rfl, rfl, rfl, rfl, by decide⟩

/-- Claim C3 (code bug): `every(predicate)` must return `true` iff the
predicate is truthy on every element, each invocation receiving the element
with its correct logical index.  Concretely: in the cached-chunk-1 state of
the four-record file, the predicate `(v, i) => v !== undefined` is truthy on
every element of the array (streamed over the file it holds at every index),
yet `every` returns `false`: its cached pre-pass iterates `i = 1, 2` over a
2-element chunk, feeding the predicate `data[2] = undefined`. -/
theorem every_cached_chunk_bug :
    stateABCDat2.cachedChunk = some (1, [['c'], ['d']])
    ∧ ((tokenizeFile '\n' false stateABCDat2.file).map (·.line)).enum.all
        (fun kl => (fun v (_ : Nat) => v.isSome) (some kl.2) kl.1) = true
    ∧ (everyOp stateABCDat2 (fun v _ => v.isSome)).map Prod.fst = Except.ok false := by
  refine ⟨rfl, rfl, rfl⟩

/-- Claim C4 (code bug): the tokenizer drops the zero-length record between
two adjacent delimiters, but its byte-offset counter does not advance for the
dropped piece (and its per-record advance hard-codes width 1 rather than the
delimiter width).  Concretely: on the stream `"a\n\nb"` the record `"b"` is
emitted with `byteIdx = 2`, while the spec's accounting (delimiter-width +
content-width for every piece, dropped ones included) puts its start at byte
3 — where `'b'` actually sits. -/
theorem getLines_dropped_record_offset_bug :
    getLinesRun ['\n'] false [['a', '\n', '\n', 'b']] =
      [{ idx := 0, byteIdx := 0, line := ['a'] },
       { idx := 1, byteIdx := 2, line := ['b'] }]
    ∧ specRecordStarts 1 [['a'], [], ['b']] = [0, 2, 3]
    ∧ ['a', '\n', '\n', 'b'][3]? = some 'b'
    ∧ (2 : Nat) ≠ 3 := by
  refine ⟨rfl, rfl, rfl, by decide⟩

/-- Claim C5 (code bug): flushing buffered records into a non-empty file that
does not end with the configured delimiter must insert a leading *configured*
delimiter; the source appends a hard-coded `'\n'`.  Concretely: with
delimiter `';'` and file `"a"`, pushing `"b"` and flushing produces the file
`"a\nb"`, which the `';'` tokenizer reads as the single record `"a\nb"`
instead of the claimed two records `"a"`, `"b"` (file `"a;b"`). -/
theorem flushPushedValues_hardcoded_newline_bug :
    pushOp stateSemiA [['b']] = Except.ok (2, stateSemiApushed)
    ∧ (flushOp stateSemiApushed).file = ['a', '\n', 'b']
    ∧ (tokenizeFile ';' false (flushOp stateSemiApushed).file).map (·.line) =
        [['a', '\n', 'b']]
    ∧ ([['a', '\n', 'b']] : List (List Char)) ≠ [['a'], ['b']] := by
  refine ⟨rfl, rfl, rfl, by decide⟩

/-- Claim C6 (code bug): after `push(v)`, `at(length - 1)` must resolve to
`v` — including when the push triggered an auto-flush.  Concretely: on the
four-record stride-2 file with `maxPushedValuesBufferSize = 2`, pushing
`"e", "f", "g"` auto-flushes; the flush writes the correct file (the
tokenizer reads back `a … g`, so the element at index 6 is `"g"`) but
appends checkpoints with corrupt byte offsets (byte 22 of a 13-byte file),
so `at(6)` streams an empty range and resolves to `undefined` instead of
`"g"`.  The length part of the claim does hold: `push` returns 7. -/
theorem push_auto_flush_at_bug :
    pushOp stateAuto [['e'], ['f'], ['g']] = Except.ok (7, stateAutoPushed)
    ∧ (tokenizeFile '\n' false stateAutoPushed.file).map (·.line) =
        [['a'], ['b'], ['c'], ['d'], ['e'], ['f'], ['g']]
    ∧ stateAutoPushed.checkpoints.map Checkpoint.byte = [0, 4, 10, 22]
    ∧ stateAutoPushed.file.length = 13
    ∧ (atOp stateAutoPushed 6).map Prod.fst = Except.ok none
    ∧ (none : Option (List Char)) ≠ some ['g'] := by
  refine ⟨rfl, rfl, rfl, rfl, rfl, by decide⟩

/-- Claim C7 counterexample: with `minElementsPerCheckpoint = 64` and
`maxElementsPerCheckpoint = 10` — a combination the claim explicitly ranges
over — the stride starts at 10, the resize guard `stride !== min` is
satisfied, and the first resize action sets the stride to
`max(64, floor(10 / 2)) = 64 > 10`: the stride grows. -/
theorem stride_growth_counterexample :
    strideSeq 64 10 0 = 10 ∧ (10 : Nat) ≠ 64 ∧ strideSeq 64 10 1 = 64 ∧ 10 < 64 := by
  decide

/-- One resize action neither increases the stride nor drops it below the
configured minimum, provided the minimum is at most the current stride. -/
theorem strideStep_bounds (minEpc epc : Nat) (h : minEpc ≤ epc) :
    strideStep minEpc epc ≤ epc ∧ minEpc ≤ strideStep minEpc epc := by
  unfold strideStep
  split
  · exact ⟨Nat.max_le.mpr ⟨h, Nat.div_le_self _ _⟩, Nat.le_max_left _ _⟩
  · exact ⟨Nat.le_refl _, h⟩

/-- The stride never falls below the configured minimum when `min ≤ max`. -/
theorem strideSeq_ge_min (minEpc maxEpc : Nat) (h : minEpc ≤ maxEpc) :
    ∀ n, minEpc ≤ strideSeq minEpc maxEpc n := by
  intro n
  induction n with
  | zero => exact h
  | succ n ih => exact (strideStep_bounds _ _ ih).2

/-- Claim C7, amended: provided `minElementsPerCheckpoint ≤
maxElementsPerCheckpoint`, the stride starts at the configured maximum, each
resize action sets it to `max(min, floor(stride / 2))` (the guarded step),
and the resulting sequence is monotonically non-increasing and never below
the minimum — it never grows back.  (Without `min ≤ max` the first action
can grow the stride, as the counterexample shows.) -/
theorem stride_monotone_amended (minEpc maxEpc : Nat) (h : minEpc ≤ maxEpc) (n : Nat) :
    strideSeq minEpc maxEpc 0 = maxEpc
    ∧ strideSeq minEpc maxEpc (n + 1) = strideStep minEpc (strideSeq minEpc maxEpc n)
    ∧ strideSeq minEpc maxEpc (n + 1) ≤ strideSeq minEpc maxEpc n
    ∧ minEpc ≤ strideSeq minEpc maxEpc n := by
  refine ⟨rfl, rfl, ?_, strideSeq_ge_min minEpc maxEpc h n⟩
  exact (strideStep_bounds _ _ (strideSeq_ge_min minEpc maxEpc h n)).1

/-- Witness for the amended C7 theorem at `min = 2`, `max = 8`, one step. -/
theorem stride_monotone_amended_witness :
    (2 : Nat) ≤ 8
    ∧ (strideSeq 2 8 0 = 8
        ∧ strideSeq 2 8 2 = strideStep 2 (strideSeq 2 8 1)
        ∧ strideSeq 2 8 2 ≤ strideSeq 2 8 1
        ∧ 2 ≤ strideSeq 2 8 1) :=
  ⟨by decide, stride_monotone_amended 2 8 (by decide) 1⟩

/-- Claim C8 counterexample: on the one-element array `[NaN]`,
`includes(NaN)` is `true` but `indexOf(NaN)` returns `-1`, not the element's
index 0 — `indexOf` does not use the NaN-aware comparison. -/
theorem indexOf_nan_counterexample :
    includesOp [JsVal.nan] JsVal.nan 0 = true
    ∧ indexOfOp [JsVal.nan] JsVal.nan 0 = -1
    ∧ (-1 : Int) ≠ 0 := by
  refine ⟨rfl, rfl, by decide⟩

/-- JS strict equality never holds against `NaN`. -/
theorem strictEq_nan_right (x : JsVal) : strictEq x JsVal.nan = false := by
  cases x <;> rfl

/-- A scan whose predicate is constantly false finds nothing. -/
theorem findFirstFrom_none_of (p : JsVal → Bool) (hp : ∀ x, p x = false) :
    ∀ (xs : List JsVal) (i st : Nat), findFirstFrom p xs i st = none := by
  intro xs
  induction xs with
  | nil => intro i st; rfl
  | cons x rest ih =>
    intro i st
    simp only [findFirstFrom, hp x, Bool.false_eq_true, and_false, if_false]
    exact ih (i + 1) st

/-- A full scan (start index 0) finds something iff some element satisfies
the predicate. -/
theorem findFirstFrom_isSome (p : JsVal → Bool) :
    ∀ (xs : List JsVal) (i : Nat),
      (findFirstFrom p xs i 0).isSome = true ↔ ∃ x ∈ xs, p x = true := by
  intro xs
  induction xs with
  | nil => intro i; simp [findFirstFrom]
  | cons x rest ih =>
    intro i
    by_cases hp : p x = true
    · simp [findFirstFrom, hp]
    · simp only [Bool.not_eq_true] at hp
      simp [findFirstFrom, hp, ih (i + 1)]

/-- A full scan (start index 0) finds nothing iff no element satisfies the
predicate. -/
theorem findFirstFrom_eq_none (p : JsVal → Bool) :
    ∀ (xs : List JsVal) (i : Nat),
      findFirstFrom p xs i 0 = none ↔ ∀ x ∈ xs, p x = false := by
  intro xs
  induction xs with
  | nil => intro i; simp [findFirstFrom]
  | cons x rest ih =>
    intro i
    by_cases hp : p x = true
    · simp [findFirstFrom, hp]
    · simp only [Bool.not_eq_true] at hp
      simp [findFirstFrom, hp, ih (i + 1)]

/-- `clampIndex 0` on a non-empty array is index 0. -/
theorem clampIndex_zero_pos (length : Nat) (h : 0 < length) :
    clampIndex 0 length = some 0 := by
  have c1 : ¬(-(length : Int) ≤ 0 ∧ (0 : Int) < 0) := by omega
  have c2 : ¬((0 : Int) < -(length : Int)) := by omega
  have c3 : ¬((0 : Int) ≥ (length : Int)) := by omega
  simp [clampIndex, c1, c2, c3]

/-- `findFirstEntry` from index 0 on a non-empty array is the plain scan. -/
theorem findFirstEntryOp_zero (p : JsVal → Bool) (xs : List JsVal) (h : xs ≠ []) :
    findFirstEntryOp p xs 0 = findFirstFrom p xs 0 0 := by
  have hlen : 0 < xs.length := List.length_pos.mpr h
  have : ¬((0 : Int) ≥ (xs.length : Int)) := by omega
  simp [findFirstEntryOp, this]

/-- On a non-empty array, `includes(w, 0)` is the plain `sameValueZero` scan. -/
theorem includesOp_cons (y : JsVal) (rest : List JsVal) (w : JsVal) :
    includesOp (y :: rest) w 0 =
      (findFirstFrom (fun val => sameValueZero val w) (y :: rest) 0 0).isSome := by
  simp only [includesOp]
  rw [clampIndex_zero_pos ((y :: rest).length) (by simp)]
  simp only []
  rw [findFirstEntryOp_zero _ _ (by simp)]

/-- On a non-empty array, `indexOf(w, 0)` is the plain strict-equality scan. -/
theorem indexOfOp_cons (y : JsVal) (rest : List JsVal) (w : JsVal) :
    indexOfOp (y :: rest) w 0 =
      (match findFirstFrom (fun val => strictEq val w) (y :: rest) 0 0 with
        | some (i, _) => (i : Int)
        | none => -1) := by
  simp only [indexOfOp]
  rw [clampIndex_zero_pos ((y :: rest).length) (by simp)]
  simp only []
  rw [findFirstEntryOp_zero _ _ (by simp)]

/-- Claim C8, amended: `includes` decides equality with `sameValueZero`
(NaN-aware, `±0`-aware), but `indexOf` decides it with JS strict equality
`===`, which never matches `NaN`.  In particular `indexOf(NaN)` is `-1` for
every array and every `fromIndex`, while `includes(NaN)` is `true` exactly
when the array contains `NaN`. -/
theorem includes_indexOf_equality_amended (xs : List JsVal) (v : JsVal) (f : Int) :
    indexOfOp xs JsVal.nan f = -1
    ∧ (includesOp xs v 0 = true ↔ ∃ x ∈ xs, sameValueZero x v = true)
    ∧ (indexOfOp xs v 0 = -1 ↔ ∀ x ∈ xs, strictEq x v = false)
    ∧ (JsVal.nan ∈ xs → includesOp xs JsVal.nan 0 = true) := by
  have hnan : ∀ x, strictEq x JsVal.nan = false := strictEq_nan_right
  refine ⟨?_, ?_, ?_, ?_⟩
  · simp only [indexOfOp]
    cases hc : clampIndex f xs.length with
    | none => rfl
    | some fr =>
      simp only [findFirstEntryOp]
      by_cases hge : fr ≥ (xs.length : Int)
      · simp [hge]
      · simp only [hge, if_false]
        rw [findFirstFrom_none_of _ hnan]
  · rcases xs with _ | ⟨x, rest⟩
    · simp [includesOp, clampIndex]
    · rw [includesOp_cons]
      exact findFirstFrom_isSome _ _ _
  · rcases xs with _ | ⟨x, rest⟩
    · simp [indexOfOp, clampIndex]
    · rw [indexOfOp_cons]
      cases hr : findFirstFrom (fun val => strictEq val v) (x :: rest) 0 0 with
      | none =>
        change ((-1 : Int) = -1) ↔ _
        constructor
        · intro _
          exact (findFirstFrom_eq_none _ _ _).mp hr
        · intro _
          rfl
      | some iv =>
        obtain ⟨i, w⟩ := iv
        change ((i : Int) = -1) ↔ _
        constructor
        · intro hi
          exfalso
          omega
        · intro hall
          rw [(findFirstFrom_eq_none _ _ _).mpr hall] at hr
          exact absurd hr (by simp)
  · intro hmem
    rcases xs with _ | ⟨x, rest⟩
    · simp at hmem
    · rw [includesOp_cons]
      exact (findFirstFrom_isSome _ _ _).mpr ⟨JsVal.nan, hmem, rfl⟩

/-- Witness for the amended C8 theorem on the array `[NaN]`. -/
theorem includes_indexOf_equality_amended_witness :
    indexOfOp [JsVal.nan] JsVal.nan 5 = -1
    ∧ includesOp [JsVal.nan] JsVal.nan 0 = true :=
  ⟨(includes_indexOf_equality_amended [JsVal.nan] (JsVal.num 3) 5).1,
   (includes_indexOf_equality_amended [JsVal.nan] (JsVal.num 3) 5).2.2.2 (by decide)⟩

/-- A read-only stride-2 configuration. -/
def cfgReadonly : ArrConfig :=
  { cfgStride2 with readonlyMode := true }

/-- Claim C9 counterexample: two of the claimed usage errors do not fail.  A
fresh (never-initialized) instance answers `sampleIndex()` with `-1` instead
of throwing (the source has no readiness guard there, and the length is still
0), and the constructor accepts an empty delimiter without error (the empty
string is falsy, so the validation is skipped). -/
theorem usage_errors_counterexample :
    (mkState cfgStride2 fileAB).ready = false
    ∧ sampleIndexOp (mkState cfgStride2 fileAB) (1/2) = -1
    ∧ delimiterCheck (some "") = Except.ok () := by
  refine ⟨rfl, rfl, rfl⟩

/-- Claim C9, amended: the asynchronous query operations (`at`, `every`,
`slice`, …) called before `init()` fail fast with the not-initialized error,
`init()` called twice fails, `push` on a read-only instance fails, and a
multi-byte delimiter fails the constructor check — but `sampleIndex()` before
`init()` returns `-1` without throwing (no readiness guard; the length is
still 0), and an empty delimiter passes the constructor check unrebuked
(JS truthiness skips the validation). -/
theorem usage_errors_amended (s t : ArrState) (cfg : ArrConfig) (file : List Char)
    (index : Int) (p : Option (List Char) → Nat → Bool) (a b : Option Int)
    (items : List (List Char)) (r : Rat) (d : String) :
    (s.ready = false →
      atOp s index = Except.error notReadyMsg
      ∧ everyOp s p = Except.error notReadyMsg
      ∧ sliceOp s a b = Except.error notReadyMsg)
    ∧ (t.ready = true → initOp t = Except.error "Infinarray object already initialized")
    ∧ (s.config.readonlyMode = true →
        pushOp s items = Except.error "Infinarray is in readonly mode, objects cannot be pushed")
    ∧ (d ≠ "" → d.utf8ByteSize ≠ 1 →
        delimiterCheck (some d) = Except.error "Delimiter must be a single byte character")
    ∧ delimiterCheck (some "") = Except.ok ()
    ∧ (mkState cfg file).ready = false
    ∧ sampleIndexOp (mkState cfg file) r = -1 := by
  refine ⟨?_, ?_, ?_, ?_, rfl, rfl, rfl⟩
  · intro hs
    exact ⟨by simp [atOp, hs], by simp [everyOp, hs], by simp [sliceOp, hs]⟩
  · intro ht
    simp [initOp, ht]
  · intro hro
    simp [pushOp, hro]
  · intro hd1 hd2
    simp [delimiterCheck, hd1, hd2]

/-- Witness for the amended C9 theorem at concrete states and inputs. -/
theorem usage_errors_amended_witness :
    atOp (mkState cfgReadonly fileAB) 0 = Except.error notReadyMsg
    ∧ initOp { mkState cfgStride2 fileAB with ready := true } =
        Except.error "Infinarray object already initialized"
    ∧ pushOp (mkState cfgReadonly fileAB) [['x']] =
        Except.error "Infinarray is in readonly mode, objects cannot be pushed"
    ∧ delimiterCheck (some "ab") =
        Except.error "Delimiter must be a single byte character" := by
  have h := usage_errors_amended (mkState cfgReadonly fileAB)
    { mkState cfgStride2 fileAB with ready := true } cfgStride2 fileAB 0
    (fun _ _ => true) none none [['x']] (1/2) "ab"
  exact ⟨(h.1 rfl).1, h.2.1 rfl, h.2.2.1 rfl, h.2.2.2.1 (by decide) (by decide)⟩

/-- Claim C10 counterexample: in a view whose `mapFn` sends everything to the
falsy value `0`, over the material array `[5]` with an always-true predicate,
`find` returns `0` (a defined, falsy mapped value) — not `undefined` — even
though the mapped result is falsy.  The truthiness test is applied to the
material value `5`, not to the mapped result. -/
theorem view_find_falsy_counterexample :
    viewFind (fun _ => JsVal.num 0) (fun _ => true) [JsVal.num 5] = some (JsVal.num 0)
    ∧ truthy (JsVal.num 0) = false := by
  refine ⟨rfl, rfl⟩

/-- First-match selection: either branch of an appended list. -/
theorem find?_append_combine (p : JsVal → Bool) :
    ∀ (l₁ l₂ : List JsVal),
      (l₁ ++ l₂).find? p =
        (match l₁.find? p with
          | some v => some v
          | none => l₂.find? p) := by
  intro l₁
  induction l₁ with
  | nil => intro l₂; rfl
  | cons x rest ih =>
    intro l₂
    by_cases hp : p x = true
    · simp [List.find?_cons_of_pos, hp]
    · simp only [Bool.not_eq_true] at hp
      simp [List.find?_cons_of_neg, hp, ih]

/-- The first scan, projected to values, is `List.find?`. -/
theorem findFirstFrom_map_snd (p : JsVal → Bool) :
    ∀ (xs : List JsVal) (i : Nat),
      (findFirstFrom p xs i 0).map Prod.snd = xs.find? p := by
  intro xs
  induction xs with
  | nil => intro i; rfl
  | cons x rest ih =>
    intro i
    by_cases hp : p x = true
    · simp [findFirstFrom, hp, List.find?_cons_of_pos]
    · simp only [Bool.not_eq_true] at hp
      simp [findFirstFrom, hp, List.find?_cons_of_neg, ih (i + 1)]

/-- The material `find` (a `findFirstEntry` from index 0, projected to the
value) is `List.find?` over the logical record list. -/
theorem materialFind_eq_find? (p : JsVal → Bool) (xs : List JsVal) :
    (findFirstEntryOp p xs 0).map Prod.snd = xs.find? p := by
  rcases xs with _ | ⟨x, rest⟩
  · rfl
  · rw [findFirstEntryOp_zero _ _ (by simp)]
    exact findFirstFrom_map_snd _ _ _

/-- The last-match scan, projected to values, is the first match of the
reversed list (with the accumulator as fallback). -/
theorem findLastAux_map_snd (p : JsVal → Bool) :
    ∀ (xs : List JsVal) (i : Nat) (acc : Option (Nat × JsVal)),
      (findLastAux p xs i acc).map Prod.snd =
        (match xs.reverse.find? p with
          | some v => some v
          | none => acc.map Prod.snd) := by
  intro xs
  induction xs with
  | nil => intro i acc; rfl
  | cons x rest ih =>
    intro i acc
    have hrev : (x :: rest).reverse = rest.reverse ++ [x] := by simp
    rw [findLastAux, ih (i + 1), hrev, find?_append_combine]
    by_cases hp : p x = true
    · cases hrest : rest.reverse.find? p <;> simp [hp]
    · simp only [Bool.not_eq_true] at hp
      cases hrest : rest.reverse.find? p <;> simp [hp]

/-- The material `findLast`, projected to the value, is `List.find?` over the
reversed logical record list. -/
theorem materialFindLast_eq_find? (p : JsVal → Bool) (xs : List JsVal) :
    (findLastEntryOp p xs).map Prod.snd = xs.reverse.find? p := by
  rw [findLastEntryOp, findLastAux_map_snd]
  cases xs.reverse.find? p <;> rfl

/-- Claim C10, amended: the view's `find`, `findLast` and `sampleValue` apply
the JS truthiness test to the *underlying material* result value, not to the
mapped result: they return `undefined` exactly when there is no result or the
material result is falsy, and when the material result is truthy they return
the mapped value — even if that mapped value is itself falsy. -/
theorem view_falsy_check_amended (mapFn : JsVal → JsVal) (p : JsVal → Bool)
    (xs : List JsVal) (i : Nat) (v : JsVal) :
    viewFind mapFn p xs =
      (xs.find? fun m => p (mapFn m)).bind
        (fun val => if truthy val then some (mapFn val) else none)
    ∧ viewFindLast mapFn p xs =
      (xs.reverse.find? fun m => p (mapFn m)).bind
        (fun val => if truthy val then some (mapFn val) else none)
    ∧ (xs[i]? = some v →
        viewSampleValueAt mapFn xs i = if truthy v then some (mapFn v) else none)
    ∧ (xs.find? (fun m => p (mapFn m)) = some v → truthy v = false →
        viewFind mapFn p xs = none) := by
  have hfind : viewFind mapFn p xs =
      (xs.find? fun m => p (mapFn m)).bind
        (fun val => if truthy val then some (mapFn val) else none) := by
    rw [viewFind, materialFind_eq_find?]
    cases xs.find? fun m => p (mapFn m) <;> rfl
  refine ⟨hfind, ?_, ?_, ?_⟩
  · rw [viewFindLast, materialFindLast_eq_find?]
    cases xs.reverse.find? fun m => p (mapFn m) <;> rfl
  · intro hi
    rw [viewSampleValueAt, hi]
    rfl
  · intro hv htr
    rw [hfind, hv]
    simp [htr]

/-- Witness for the amended C10 theorem: material array `[0]`, `mapFn` to the
truthy value `7` — the view's `sampleValue` and `find` both come back
`undefined` because the material element `0` is falsy. -/
theorem view_falsy_check_amended_witness :
    viewSampleValueAt (fun _ => JsVal.num 7) [JsVal.num 0] 0 = none
    ∧ viewFind (fun _ => JsVal.num 7) (fun _ => true) [JsVal.num 0] = none := by
  have h := view_falsy_check_amended (fun _ => JsVal.num 7) (fun _ => true)
    [JsVal.num 0] 0 (JsVal.num 0)
  exact ⟨h.2.2.1 rfl, h.2.2.2 rfl rfl⟩

end InfinSpec
